import Mathlib

/-!
Shallow embedding of the contacts-management repository layer
(`src/repository/contacts.py`, `src/routes/contacts.py`,
`src/database/models.py`, `src/schemas.py`).

The persistent store is modelled as a list of `Contact` rows; each
repository operation takes the store, the authenticated user's id (the
Python code receives a `User` object and only ever uses `user.id`), and
returns the query result together with the possibly-updated store.
SQLAlchemy's `query(...).first()` is `List.find?`, `.all()` with a filter
is `List.filter`, `db.delete(contact)` deletes the row with that primary
key, and an ORM field assignment followed by `db.commit()` is an update
of the row with that primary key (the `updated_at` column has
`onupdate=func.now()`, so a commit of a mutation stamps it with the
current time).

Dates are modelled with the proleptic Gregorian calendar; `datetime`
values carry a date and a seconds-within-day component.  Database
timestamps (`created_at`, `updated_at`, `func.now()`) are abstract `Nat`
instants.
-/

/-- A calendar date: year, month (1-12), day (1-31). -/
structure Date where
  year : Nat
  month : Nat
  day : Nat
deriving DecidableEq, Repr

/-- A `datetime.datetime` value: a date plus seconds within the day. -/
structure Datetime where
  date : Date
  sec : Nat
deriving DecidableEq, Repr

/-- Gregorian leap-year rule. -/
def isLeap (y : Nat) : Bool :=
  y % 4 == 0 && (y % 100 != 0 || y % 400 == 0)

/-- Number of days in month `m` of year `y`. -/
def daysInMonth (y m : Nat) : Nat :=
  if m = 2 then (if isLeap y then 29 else 28)
  else if m = 4 ∨ m = 6 ∨ m = 9 ∨ m = 11 then 30
  else 31

/-- The validity check Python's `datetime` constructor (and `.replace`)
performs on a year/month/day triple; a `ValueError` is raised exactly
when this is false. -/
def validDate (d : Date) : Bool :=
  1 ≤ d.month && d.month ≤ 12 && 1 ≤ d.day && d.day ≤ daysInMonth d.year d.month

/-- The day after `d`. -/
def nextDay (d : Date) : Date :=
  if d.day < daysInMonth d.year d.month then ⟨d.year, d.month, d.day + 1⟩
  else if d.month < 12 then ⟨d.year, d.month + 1, 1⟩
  else ⟨d.year + 1, 1, 1⟩

/-- Python `d + timedelta(days = n)` on the date component. -/
def addDays (d : Date) : Nat → Date
  | 0 => d
  | n + 1 => addDays (nextDay d) n

/-- Zero-padded two-digit decimal rendering, as Postgres `to_char`
produces for the `MM` and `DD` patterns. -/
def pad2 (n : Nat) : String :=
  if n < 10 then "0" ++ toString n else toString n

/-- Postgres `to_char(value, 'MM-DD')`: the month-day of a date rendered as a
five-character string. -/
def mmddStr (d : Date) : String :=
  pad2 d.month ++ "-" ++ pad2 d.day

/-- The character codes of a string. -/
def codes (s : String) : List Nat :=
  s.data.map Char.toNat

/-- Lexicographic order on code lists. -/
def natLexLe : List Nat → List Nat → Bool
  | [], _ => true
  | _ :: _, [] => false
  | a :: as, b :: bs => if a < b then true else if b < a then false else natLexLe as bs

/-- Postgres string comparison (`<=` between `to_char` results): bytewise
lexicographic order, which on these ASCII strings is lexicographic order
of the character codes. -/
def strLe (a b : String) : Bool :=
  natLexLe (codes a) (codes b)

/-- Lexicographic order on dates, as Python compares `datetime.date`
components. -/
def dateLt (a b : Date) : Bool :=
  a.year < b.year ||
    (a.year == b.year &&
      (a.month < b.month || (a.month == b.month && a.day < b.day)))

/-- Python's `<` on `datetime` values: date first, then time of day. -/
def dtLt (a b : Datetime) : Bool :=
  dateLt a.date b.date || (a.date == b.date && a.sec < b.sec)

/-- Leap days among the years `1 .. y`. -/
def leapsBefore (y : Nat) : Nat :=
  y / 4 - y / 100 + y / 400

/-- Days in all years strictly before year `y` (rata-die style count). -/
def daysBeforeYear (y : Nat) : Nat :=
  365 * (y - 1) + leapsBefore (y - 1)

/-- Days in the months of year `y` strictly before month `m`. -/
def daysBeforeMonth (y m : Nat) : Nat :=
  ((List.range (m - 1)).map (fun i => daysInMonth y (i + 1))).foldr (· + ·) 0

/-- Absolute day number of a date (monotone in the calendar order for
valid dates); used to realise `datetime` subtraction. -/
def toRataDie (d : Date) : Nat :=
  daysBeforeYear d.year + daysBeforeMonth d.year d.month + d.day

/-- A `datetime` as an absolute number of seconds. -/
def toSecs (t : Datetime) : Int :=
  (toRataDie t.date : Int) * 86400 + (t.sec : Int)

/-- A row of the `contacts` table (`src/database/models.py`, class
`Contact`): primary key `id`, the six data columns, the owner foreign
key `user_id`, and the two timestamp columns. -/
structure Contact where
  id : Nat
  firstname : String
  lastname : String
  email : String
  phone : String
  birthday : Datetime
  notes : String
  user_id : Nat
  created_at : Nat
  updated_at : Nat
deriving DecidableEq, Repr

/-- The validated request body (`src/schemas.py`, class `ContactModel`). -/
structure ContactModel where
  firstname : String
  lastname : String
  birthday : Datetime
  phone : String
  email : String
  notes : String
deriving DecidableEq, Repr

/-- The contacts table. -/
abbrev Store := List Contact

/-- The `days_to_next_birthday` hybrid property of `Contact`
(`src/database/models.py` lines 35-41):

    next_birthday = self.birthday.replace(year=datetime.today().year)
    if next_birthday < datetime.today():
        next_birthday = datetime(next_birthday.year + 1, next_birthday.month, next_birthday.day)
    count_days = (next_birthday - datetime.today()).days
    return count_days

`replace` keeps the birthday's time of day; the bumped
`datetime(y+1, m, d)` is at midnight; `timedelta.days` is floor division
of the signed second difference by 86400 (`Int.fdiv`).  Either
constructor raises `ValueError` on an invalid year/month/day triple,
modelled as `none`.  The source calls `datetime.today()` three times in
a row; the model evaluates all three at the single instant `today`. -/
def days_to_next_birthday (birthday : Datetime) (today : Datetime) : Option Int :=
  let m := birthday.date.month
  let d := birthday.date.day
  if validDate ⟨today.date.year, m, d⟩ then
    let nb : Datetime := ⟨⟨today.date.year, m, d⟩, birthday.sec⟩
    if dtLt nb today then
      if validDate ⟨today.date.year + 1, m, d⟩ then
        some (Int.fdiv (toSecs ⟨⟨today.date.year + 1, m, d⟩, 0⟩ - toSecs today) 86400)
      else none
    else
      some (Int.fdiv (toSecs nb - toSecs today) 86400)
  else none

/-- Repository `get_contacts(db, user)`: all contacts joined to their owner and
filtered by `User.id == user.id`. -/
def get_contacts (db : Store) (userId : Nat) : List Contact :=
  db.filter (fun c => c.user_id == userId)

/-- Repository `get_contact_by_id(db, user, contact_id)`: `.filter(and_(Contact.id
== contact_id, User.id == user.id)).first()`. -/
def get_contact_by_id (db : Store) (userId : Nat) (contact_id : Nat) : Option Contact :=
  db.find? (fun c => c.id == contact_id && c.user_id == userId)

/-- Repository `get_next_week_birthday_contacts(db, user)`: filters on
`to_char(Contact.birthday,'MM-DD') >= to_char(today,'MM-DD')`,
`<= to_char(today + timedelta(days=7),'MM-DD')`, and the owner; the
current instant's date is the extra `today` parameter (`to_char` with
`'MM-DD'` ignores the time of day, and adding seven days to a
`datetime` shifts its date component by seven days). -/
def get_next_week_birthday_contacts (db : Store) (userId : Nat) (today : Date) : List Contact :=
  let next_week := addDays today 7
  db.filter (fun c =>
    strLe (mmddStr today) (mmddStr c.birthday.date) &&
    strLe (mmddStr c.birthday.date) (mmddStr next_week) &&
    c.user_id == userId)

/-- ASCII lower-casing of a character code, as both Postgres `lower()`
and Python `str.lower` act on the ASCII range (the only characters in
the emails at issue). -/
def lowerCode (n : Nat) : Nat :=
  if 65 ≤ n ∧ n ≤ 90 then n + 32 else n

/-- A string's character codes, lower-cased. -/
def lowerKey (s : String) : List Nat :=
  (codes s).map lowerCode

/-- SQL `LIKE` matching over case-folded character codes.  The pattern is
the first argument and recursion is structural on it: code 37 (`%`)
matches any sequence of characters (realised by trying every suffix of
the subject), code 95 (`_`) matches exactly one arbitrary character, and
any other code matches only itself.  The default `ESCAPE` character
(backslash) is not modelled: none of the patterns at issue contain
one. -/
def likeMatch : List Nat → List Nat → Bool
  | [], s => s.isEmpty
  | p :: ps, s =>
    if p = 37 then
      s.tails.any (fun s' => likeMatch ps s')
    else if p = 95 then
      match s with
      | [] => false
      | _ :: s' => likeMatch ps s'
    else
      match s with
      | [] => false
      | c :: s' => c == p && likeMatch ps s'

/-- SQL `ilike`: case-insensitive `LIKE`, i.e. both operands are
case-folded (ASCII, as both Postgres and the emails at issue stay in
that range) and the user-supplied email is interpreted as a `LIKE`
pattern, with `%` and `_` acting as wildcards. -/
def emailMatches (stored pattern : String) : Bool :=
  likeMatch (lowerKey pattern) (lowerKey stored)

/-- Repository `get_contact_by_email(db, user, email)`:
`.filter(and_(Contact.email.ilike(email), User.id == user.id)).first()`. -/
def get_contact_by_email (db : Store) (userId : Nat) (email : String) : Option Contact :=
  db.find? (fun c => emailMatches c.email email && c.user_id == userId)

/-- The next primary key the autoincrement column assigns: one past the
largest id in the table. -/
def freshId (db : Store) : Nat :=
  db.foldr (fun c acc => max c.id acc) 0 + 1

/-- Repository `create(db, user, body)`: builds `Contact(**body.dict(),
user_id=user.id)`, inserts and commits it; the `created_at` and
`updated_at` columns both default to `func.now()`, the commit instant
`now`.  Returns the refreshed row and the new store. -/
def create (db : Store) (userId : Nat) (body : ContactModel) (now : Nat) : Contact × Store :=
  let contact : Contact :=
    { id := freshId db
      firstname := body.firstname
      lastname := body.lastname
      email := body.email
      phone := body.phone
      birthday := body.birthday
      notes := body.notes
      user_id := userId
      created_at := now
      updated_at := now }
  (contact, db ++ [contact])

/-- The field assignments of `update` plus the `onupdate=func.now()`
stamp the commit applies to `updated_at`. -/
def applyBody (c : Contact) (body : ContactModel) (now : Nat) : Contact :=
  { c with
    firstname := body.firstname
    lastname := body.lastname
    phone := body.phone
    email := body.email
    birthday := body.birthday
    notes := body.notes
    updated_at := now }

/-- Repository `update(db, user, contact_id, body)`: fetches via
`get_contact_by_id`; if found, assigns the six fields and commits
(which rewrites the row with that primary key and refreshes
`updated_at`); otherwise the store is untouched and no commit occurs. -/
def update (db : Store) (userId contact_id : Nat) (body : ContactModel) (now : Nat) :
    Option Contact × Store :=
  match get_contact_by_id db userId contact_id with
  | none => (none, db)
  | some c =>
    (some (applyBody c body now),
     db.map (fun x => if x.id = c.id then applyBody x body now else x))

/-- Repository `remove(db, user, contact_id)`: fetches via `get_contact_by_id`; if
found, `db.delete(contact)` removes the row with that primary key and
commits; otherwise the store is untouched. -/
def remove (db : Store) (userId contact_id : Nat) : Option Contact × Store :=
  match get_contact_by_id db userId contact_id with
  | none => (none, db)
  | some c => (some c, db.filter (fun x => x.id != c.id))

/-- Domain errors the routes map to HTTP status codes. -/
inductive ApiError where
  | notFound
  | conflict
deriving DecidableEq, Repr

/-- Route `POST /api/contacts/` (`create_contact` in
`src/routes/contacts.py`): looks the email up with
`get_contact_by_email`; if a contact is found it raises 409 Conflict
and the store is unchanged, otherwise it delegates to `create`. -/
def create_contact (db : Store) (userId : Nat) (body : ContactModel) (now : Nat) :
    Except ApiError Contact × Store :=
  match get_contact_by_email db userId body.email with
  | some _ => (Except.error ApiError.conflict, db)
  | none =>
    let r := create db userId body now
    (Except.ok r.1, r.2)

/-- A sample stored contact used by concrete witnesses. -/
def sampleContact (i uid : Nat) (em : String) (bd : Date) : Contact :=
  { id := i
    firstname := "Taras"
    lastname := "Shevchenko"
    email := em
    phone := "+380501234567"
    birthday := ⟨bd, 0⟩
    notes := ""
    user_id := uid
    created_at := 0
    updated_at := 0 }

/-- A sample request body used by concrete witnesses. -/
def sampleBody (em : String) (bd : Date) : ContactModel :=
  { firstname := "Lesia"
    lastname := "Ukrainka"
    birthday := ⟨bd, 0⟩
    phone := "+380507654321"
    email := em
    notes := "poet" }

theorem natLexLe_refl (l : List Nat) : natLexLe l l = true := by
  induction l with
  | nil => rfl
  | cons a as ih => simp [natLexLe, ih]

theorem natLexLe_trans : ∀ {a b c : List Nat},
    natLexLe a b = true → natLexLe b c = true → natLexLe a c = true
  | [], _, _, _, _ => rfl
  | _ :: _, [], _, h, _ => by simp [natLexLe] at h
  | _ :: _, _ :: _, [], _, h => by simp [natLexLe] at h
  | a :: as, b :: bs, c :: cs, hab, hbc => by
    simp only [natLexLe] at hab hbc ⊢
    by_cases h1 : a < b
    · by_cases h2 : b < c
      · have hac : a < c := by omega
        simp [hac]
      · by_cases h3 : c < b
        · simp [h2, h3] at hbc
        · have hac : a < c := by omega
          simp [hac]
    · by_cases h4 : b < a
      · simp [h1, h4] at hab
      · have hab' : natLexLe as bs = true := by simpa [h1, h4] using hab
        by_cases h2 : b < c
        · have hac : a < c := by omega
          simp [hac]
        · by_cases h3 : c < b
          · simp [h2, h3] at hbc
          · have hbc' : natLexLe bs cs = true := by simpa [h2, h3] using hbc
            have hac : ¬ a < c := by omega
            have hca : ¬ c < a := by omega
            simp [hac, hca]
            exact natLexLe_trans hab' hbc'

theorem strLe_refl (s : String) : strLe s s = true :=
  natLexLe_refl (codes s)

theorem strLe_trans {a b c : String} (h1 : strLe a b = true) (h2 : strLe b c = true) :
    strLe a c = true :=
  natLexLe_trans h1 h2

theorem mem_id_lt_freshId {db : Store} {c : Contact} (h : c ∈ db) : c.id < freshId db := by
  induction db with
  | nil => cases h
  | cons x xs ih =>
    rcases List.mem_cons.mp h with rfl | hmem
    · simp only [freshId, List.foldr]
      omega
    · have := ih hmem
      simp only [freshId, List.foldr] at this ⊢
      omega

theorem likeMatch_refl : ∀ l : List Nat, likeMatch l l = true
  | [] => rfl
  | p :: ps => by
    simp only [likeMatch]
    by_cases h37 : p = 37
    · rw [if_pos h37, List.any_eq_true]
      exact ⟨ps, by simp [List.mem_tails], likeMatch_refl ps⟩
    · rw [if_neg h37]
      by_cases h95 : p = 95
      · rw [if_pos h95]
        exact likeMatch_refl ps
      · rw [if_neg h95]
        simp [likeMatch_refl ps]

theorem emailMatches_refl (e : String) : emailMatches e e = true :=
  likeMatch_refl (lowerKey e)

theorem get_contact_by_id_some {db : Store} {u i : Nat} {c : Contact}
    (h : get_contact_by_id db u i = some c) : c ∈ db ∧ c.id = i ∧ c.user_id = u := by
  unfold get_contact_by_id at h
  refine ⟨List.mem_of_find?_eq_some h, ?_⟩
  have hp := List.find?_some h
  simpa using hp

theorem create_contact_conflict_of_mem {db : Store} {userId now : Nat} {body : ContactModel}
    {c : Contact} (hmem : c ∈ db) (hown : c.user_id = userId)
    (hmatch : emailMatches c.email body.email = true) :
    create_contact db userId body now = (Except.error ApiError.conflict, db) := by
  have hsome : (get_contact_by_email db userId body.email).isSome := by
    unfold get_contact_by_email
    exact List.find?_isSome.mpr ⟨c, hmem, by simp [hmatch, hown]⟩
  obtain ⟨x, hx⟩ := Option.isSome_iff_exists.mp hsome
  unfold create_contact
  rw [hx]

/-- C1: a contact owned by user `u1` is invisible to any other user `u2`:
the owner-scoped `get_contact_by_id` returns `NotFound` (`none`), and
`update` and `remove`, which fetch through it, also return `NotFound`
and leave the store untouched.  `huniq` is the primary-key uniqueness of
the `id` column. -/
theorem get_scoped_other_user_none (db : Store) (u1 u2 : Nat) (c : Contact)
    (hmem : c ∈ db) (hown : c.user_id = u1) (hneq : u1 ≠ u2)
    (huniq : ∀ c' ∈ db, c'.id = c.id → c' = c) :
    get_contact_by_id db u2 c.id = none ∧
    (∀ body now, update db u2 c.id body now = (none, db)) ∧
    remove db u2 c.id = (none, db) := by
  have hnone : get_contact_by_id db u2 c.id = none := by
    unfold get_contact_by_id
    rw [List.find?_eq_none]
    intro x hx hpx
    simp only [Bool.and_eq_true, beq_iff_eq] at hpx
    obtain ⟨hid, huser⟩ := hpx
    have hxc : x = c := huniq x hx hid
    subst hxc
    exact hneq (hown ▸ huser)
  exact ⟨hnone, fun body now => by simp [update, hnone], by simp [remove, hnone]⟩

theorem get_scoped_other_user_none_witness :
    get_contact_by_id [sampleContact 1 1 "taras@ukraine.ua" ⟨1814, 3, 9⟩] 2 1 = none ∧
    (update [sampleContact 1 1 "taras@ukraine.ua" ⟨1814, 3, 9⟩] 2 1
        (sampleBody "lesia@ukraine.ua" ⟨1871, 2, 25⟩) 5 =
      (none, [sampleContact 1 1 "taras@ukraine.ua" ⟨1814, 3, 9⟩])) ∧
    remove [sampleContact 1 1 "taras@ukraine.ua" ⟨1814, 3, 9⟩] 2 1 =
      (none, [sampleContact 1 1 "taras@ukraine.ua" ⟨1814, 3, 9⟩]) := by
  have h := get_scoped_other_user_none
    [sampleContact 1 1 "taras@ukraine.ua" ⟨1814, 3, 9⟩] 1 2
    (sampleContact 1 1 "taras@ukraine.ua" ⟨1814, 3, 9⟩)
    (by decide) (by decide) (by decide) (by decide)
  exact ⟨h.1, h.2.1 (sampleBody "lesia@ukraine.ua" ⟨1871, 2, 25⟩) 5, h.2.2⟩

/-- C5: a `remove` followed by `get_contact_by_id` on the same id returns
`NotFound` (`none`); moreover after a successful removal the row is gone
for every user, not just the deleting one. -/
theorem remove_then_get_none (db : Store) (u i : Nat) :
    get_contact_by_id (remove db u i).2 u i = none ∧
    (∀ c u', (remove db u i).1 = some c → get_contact_by_id (remove db u i).2 u' i = none) := by
  cases h : get_contact_by_id db u i with
  | none =>
    refine ⟨by simp [remove, h], ?_⟩
    intro c u' hc
    simp [remove, h] at hc
  | some c =>
    obtain ⟨hmem, hcid, hcu⟩ := get_contact_by_id_some h
    have hrem : remove db u i = (some c, db.filter (fun x => x.id != c.id)) := by
      simp [remove, h]
    have hfilt : ∀ u', get_contact_by_id (db.filter (fun x => x.id != c.id)) u' i = none := by
      intro u'
      unfold get_contact_by_id
      rw [List.find?_eq_none]
      intro x hx hpx
      have h2 : (x.id != c.id) = true := (List.mem_filter.mp hx).2
      simp only [Bool.and_eq_true, beq_iff_eq] at hpx
      simp only [bne_iff_ne, ne_eq] at h2
      exact h2 (hpx.1.trans hcid.symm)
    rw [hrem]
    exact ⟨hfilt u, fun c' u' _ => hfilt u'⟩

theorem remove_then_get_none_witness :
    get_contact_by_id (remove [sampleContact 1 1 "taras@ukraine.ua" ⟨1814, 3, 9⟩] 1 1).2 2 1 =
      none :=
  (remove_then_get_none [sampleContact 1 1 "taras@ukraine.ua" ⟨1814, 3, 9⟩] 1 1).2
    (sampleContact 1 1 "taras@ukraine.ua" ⟨1814, 3, 9⟩) 2 (by rfl)

/-- C6: when no contact with the requested id is owned by the caller
(absent or owned by someone else), `update` returns `NotFound` (`none`)
and the store is returned entirely unchanged: nothing is mutated and no
commit occurs. -/
theorem update_not_found_unchanged (db : Store) (u i : Nat) (body : ContactModel) (now : Nat)
    (h : get_contact_by_id db u i = none) :
    update db u i body now = (none, db) := by
  simp [update, h]

theorem update_not_found_unchanged_witness :
    update [] 1 1 (sampleBody "lesia@ukraine.ua" ⟨1871, 2, 25⟩) 5 = (none, []) :=
  update_not_found_unchanged [] 1 1 (sampleBody "lesia@ukraine.ua" ⟨1871, 2, 25⟩) 5 (by rfl)

/-- C7: a successful `update` fully replaces the six mutable fields with
the request body's values, keeps the identity fields, and refreshes
`updated_at` to the commit instant, so under a monotone clock the new
`updated_at` is at least the previous one. -/
theorem update_replaces_fields (db : Store) (u i : Nat) (body : ContactModel) (now : Nat)
    (c : Contact) (h : get_contact_by_id db u i = some c) (hclock : c.updated_at ≤ now) :
    ∃ c', (update db u i body now).1 = some c' ∧
      c'.firstname = body.firstname ∧ c'.lastname = body.lastname ∧
      c'.phone = body.phone ∧ c'.email = body.email ∧
      c'.birthday = body.birthday ∧ c'.notes = body.notes ∧
      c'.id = c.id ∧ c'.user_id = c.user_id ∧ c'.created_at = c.created_at ∧
      c.updated_at ≤ c'.updated_at := by
  refine ⟨applyBody c body now, ?_⟩
  simp [update, h, applyBody]
  exact hclock

theorem update_replaces_fields_witness :
    ∃ c', (update [sampleContact 1 1 "taras@ukraine.ua" ⟨1814, 3, 9⟩] 1 1
        (sampleBody "lesia@ukraine.ua" ⟨1871, 2, 25⟩) 5).1 = some c' ∧
      c'.firstname = (sampleBody "lesia@ukraine.ua" ⟨1871, 2, 25⟩).firstname ∧
      c'.lastname = (sampleBody "lesia@ukraine.ua" ⟨1871, 2, 25⟩).lastname ∧
      c'.phone = (sampleBody "lesia@ukraine.ua" ⟨1871, 2, 25⟩).phone ∧
      c'.email = (sampleBody "lesia@ukraine.ua" ⟨1871, 2, 25⟩).email ∧
      c'.birthday = (sampleBody "lesia@ukraine.ua" ⟨1871, 2, 25⟩).birthday ∧
      c'.notes = (sampleBody "lesia@ukraine.ua" ⟨1871, 2, 25⟩).notes ∧
      c'.id = (sampleContact 1 1 "taras@ukraine.ua" ⟨1814, 3, 9⟩).id ∧
      c'.user_id = (sampleContact 1 1 "taras@ukraine.ua" ⟨1814, 3, 9⟩).user_id ∧
      c'.created_at = (sampleContact 1 1 "taras@ukraine.ua" ⟨1814, 3, 9⟩).created_at ∧
      (sampleContact 1 1 "taras@ukraine.ua" ⟨1814, 3, 9⟩).updated_at ≤ c'.updated_at :=
  update_replaces_fields [sampleContact 1 1 "taras@ukraine.ua" ⟨1814, 3, 9⟩] 1 1
    (sampleBody "lesia@ukraine.ua" ⟨1871, 2, 25⟩) 5
    (sampleContact 1 1 "taras@ukraine.ua" ⟨1814, 3, 9⟩) (by rfl) (by decide)

/-- C8: the repository `create` inserts a row carrying exactly the body's six fields and
the caller as owner, with both timestamps set to the commit instant (so
`updated_at == created_at` on first create), and `get_contact_by_id` on
the fresh id immediately round-trips that row. -/
theorem create_then_get_roundtrip (db : Store) (u : Nat) (body : ContactModel) (now : Nat) :
    get_contact_by_id (create db u body now).2 u (create db u body now).1.id =
      some (create db u body now).1 ∧
    (create db u body now).1.firstname = body.firstname ∧
    (create db u body now).1.lastname = body.lastname ∧
    (create db u body now).1.email = body.email ∧
    (create db u body now).1.phone = body.phone ∧
    (create db u body now).1.birthday = body.birthday ∧
    (create db u body now).1.notes = body.notes ∧
    (create db u body now).1.user_id = u ∧
    (create db u body now).1.created_at = now ∧
    (create db u body now).1.updated_at = now := by
  refine ⟨?_, rfl, rfl, rfl, rfl, rfl, rfl, rfl, rfl, rfl⟩
  have hdbnone : db.find? (fun c => c.id == freshId db && c.user_id == u) = none := by
    rw [List.find?_eq_none]
    intro x hx hpx
    simp only [Bool.and_eq_true, beq_iff_eq] at hpx
    exact absurd hpx.1 (Nat.ne_of_lt (mem_id_lt_freshId hx))
  simp only [get_contact_by_id, create]
  rw [List.find?_append, hdbnone]
  simp [List.find?]

/-- C9 (failing input): for a contact whose birthday is 29 February, the
`days_to_next_birthday` computation maps the birthday into a non-leap
current year, which Python's `datetime.replace` rejects with a
`ValueError` (`none` in this model) instead of producing a day count. -/
theorem days_to_next_birthday_feb29_error :
    days_to_next_birthday ⟨⟨2020, 2, 29⟩, 0⟩ ⟨⟨2023, 6, 1⟩, 0⟩ = none := by
  decide

/-- C4: if the caller already owns a contact with the request body's email,
the create route answers 409 Conflict and stores nothing; consequently
creating twice with the same email under the same user succeeds once and
conflicts on the second attempt. -/
theorem create_duplicate_email_conflict (db : Store) (u : Nat) (c : Contact)
    (body : ContactModel) (now : Nat)
    (hmem : c ∈ db) (hown : c.user_id = u) (hemail : c.email = body.email) :
    create_contact db u body now = (Except.error ApiError.conflict, db) ∧
    (∀ (b1 b2 : ContactModel) (n1 n2 : Nat) (c1 : Contact) (db1 : Store),
      create_contact db u b1 n1 = (Except.ok c1, db1) → b2.email = b1.email →
      create_contact db1 u b2 n2 = (Except.error ApiError.conflict, db1)) := by
  constructor
  · exact create_contact_conflict_of_mem hmem hown (by rw [hemail]; exact emailMatches_refl _)
  · intro b1 b2 n1 n2 c1 db1 hok hmail
    unfold create_contact at hok
    cases hfind : get_contact_by_email db u b1.email with
    | some x => rw [hfind] at hok; simp at hok
    | none =>
      rw [hfind] at hok
      simp only [Prod.mk.injEq, Except.ok.injEq] at hok
      obtain ⟨hc1, hdb1⟩ := hok
      subst hc1
      subst hdb1
      exact create_contact_conflict_of_mem (c := (create db u b1 n1).1)
        (by simp [create]) rfl
        (by show emailMatches b1.email b2.email = true
            rw [hmail]
            exact emailMatches_refl _)

theorem create_duplicate_email_conflict_witness :
    (create_contact [sampleContact 1 1 "taras@ukraine.ua" ⟨1814, 3, 9⟩] 1
        (sampleBody "taras@ukraine.ua" ⟨1871, 2, 25⟩) 5 =
      (Except.error ApiError.conflict, [sampleContact 1 1 "taras@ukraine.ua" ⟨1814, 3, 9⟩])) ∧
    (create_contact (create [sampleContact 1 1 "taras@ukraine.ua" ⟨1814, 3, 9⟩] 1
          (sampleBody "lesia@ukraine.ua" ⟨1871, 2, 25⟩) 5).2 1
        (sampleBody "lesia@ukraine.ua" ⟨1880, 1, 1⟩) 6 =
      (Except.error ApiError.conflict,
        (create [sampleContact 1 1 "taras@ukraine.ua" ⟨1814, 3, 9⟩] 1
          (sampleBody "lesia@ukraine.ua" ⟨1871, 2, 25⟩) 5).2)) := by
  have h := create_duplicate_email_conflict
    [sampleContact 1 1 "taras@ukraine.ua" ⟨1814, 3, 9⟩] 1
    (sampleContact 1 1 "taras@ukraine.ua" ⟨1814, 3, 9⟩)
    (sampleBody "taras@ukraine.ua" ⟨1871, 2, 25⟩) 5
    (by decide) (by decide) (by decide)
  refine ⟨h.1, ?_⟩
  exact h.2 (sampleBody "lesia@ukraine.ua" ⟨1871, 2, 25⟩)
    (sampleBody "lesia@ukraine.ua" ⟨1880, 1, 1⟩) 5 6
    (create [sampleContact 1 1 "taras@ukraine.ua" ⟨1814, 3, 9⟩] 1
      (sampleBody "lesia@ukraine.ua" ⟨1871, 2, 25⟩) 5).1
    (create [sampleContact 1 1 "taras@ukraine.ua" ⟨1814, 3, 9⟩] 1
      (sampleBody "lesia@ukraine.ua" ⟨1871, 2, 25⟩) 5).2
    (by rfl) (by rfl)

/-- C10: the duplicate-email check of the create route is scoped to the
calling user — a matching contact owned by a different user does not
block creation — and is case-insensitive for the same user: an existing
contact whose email differs only in letter case triggers 409 Conflict. -/
theorem duplicate_check_per_user_case_insensitive (db : Store) (body : ContactModel) (now : Nat) :
    (∀ (u1 u2 : Nat) (c1 : Contact), u1 ≠ u2 → c1 ∈ db → c1.user_id = u1 →
      c1.email = body.email →
      (∀ c ∈ db, c.user_id = u2 → emailMatches c.email body.email = false) →
      ∃ c', (create_contact db u2 body now).1 = Except.ok c') ∧
    (∀ (u : Nat) (c : Contact), c ∈ db → c.user_id = u →
      lowerKey c.email = lowerKey body.email →
      create_contact db u body now = (Except.error ApiError.conflict, db)) := by
  constructor
  · intro u1 u2 c1 _ _ _ _ hno
    have hnone : get_contact_by_email db u2 body.email = none := by
      unfold get_contact_by_email
      rw [List.find?_eq_none]
      intro x hx hpx
      simp only [Bool.and_eq_true, beq_iff_eq] at hpx
      obtain ⟨hm, hu⟩ := hpx
      have hf := hno x hx hu
      exact absurd hm (by simp [hf])
    refine ⟨(create db u2 body now).1, ?_⟩
    unfold create_contact
    rw [hnone]
  · intro u c hmem hown hcase
    exact create_contact_conflict_of_mem hmem hown
      (by unfold emailMatches; rw [hcase]; exact likeMatch_refl _)

theorem duplicate_check_per_user_case_insensitive_witness :
    (∃ c', (create_contact [sampleContact 1 1 "a@x.com" ⟨1990, 1, 1⟩] 2
        (sampleBody "a@x.com" ⟨1980, 5, 5⟩) 5).1 = Except.ok c') ∧
    create_contact [sampleContact 1 1 "a@x.com" ⟨1990, 1, 1⟩] 1
        (sampleBody "A@X.COM" ⟨1980, 5, 5⟩) 6 =
      (Except.error ApiError.conflict, [sampleContact 1 1 "a@x.com" ⟨1990, 1, 1⟩]) := by
  constructor
  · exact (duplicate_check_per_user_case_insensitive
      [sampleContact 1 1 "a@x.com" ⟨1990, 1, 1⟩] (sampleBody "a@x.com" ⟨1980, 5, 5⟩) 5).1
      1 2 (sampleContact 1 1 "a@x.com" ⟨1990, 1, 1⟩)
      (by decide) (by decide) (by decide) (by decide) (by decide)
  · exact (duplicate_check_per_user_case_insensitive
      [sampleContact 1 1 "a@x.com" ⟨1990, 1, 1⟩] (sampleBody "A@X.COM" ⟨1980, 5, 5⟩) 6).2
      1 (sampleContact 1 1 "a@x.com" ⟨1990, 1, 1⟩)
      (by decide) (by decide) (by decide)

/-- C2 counterexample: on 28 December a user's own contact whose birthday
month-day equals today's is not returned, although the claim requires a
birthday falling on today to be included for every current date. -/
theorem birthday_window_today_excluded :
    sampleContact 1 1 "taras@ukraine.ua" ⟨1990, 12, 28⟩ ∈
      ([sampleContact 1 1 "taras@ukraine.ua" ⟨1990, 12, 28⟩] : Store) ∧
    (sampleContact 1 1 "taras@ukraine.ua" ⟨1990, 12, 28⟩).user_id = 1 ∧
    mmddStr (sampleContact 1 1 "taras@ukraine.ua" ⟨1990, 12, 28⟩).birthday.date =
      mmddStr ⟨2023, 12, 28⟩ ∧
    sampleContact 1 1 "taras@ukraine.ua" ⟨1990, 12, 28⟩ ∉
      get_next_week_birthday_contacts
        [sampleContact 1 1 "taras@ukraine.ua" ⟨1990, 12, 28⟩] 1 ⟨2023, 12, 28⟩ := by
  refine ⟨by decide, by decide, by decide, by decide⟩

/-- C2 (amended): provided today's and (today + 7 days)'s month-day strings
are in order — i.e. the window does not span a year end — the query
returns exactly the caller's contacts whose birthday month-day string
lies within the inclusive textual window; in particular a contact whose
birthday month-day equals today's and one whose birthday month-day
equals that of today plus exactly 7 days are both included. -/
theorem upcoming_birthdays_exact (db : Store) (u : Nat) (today : Date)
    (hsame : strLe (mmddStr today) (mmddStr (addDays today 7)) = true) :
    (∀ c : Contact, c ∈ get_next_week_birthday_contacts db u today ↔
      c ∈ db ∧ strLe (mmddStr today) (mmddStr c.birthday.date) = true ∧
      strLe (mmddStr c.birthday.date) (mmddStr (addDays today 7)) = true ∧
      c.user_id = u) ∧
    (∀ c ∈ db, c.user_id = u → mmddStr c.birthday.date = mmddStr today →
      c ∈ get_next_week_birthday_contacts db u today) ∧
    (∀ c ∈ db, c.user_id = u → mmddStr c.birthday.date = mmddStr (addDays today 7) →
      c ∈ get_next_week_birthday_contacts db u today) := by
  have hchar : ∀ c : Contact, c ∈ get_next_week_birthday_contacts db u today ↔
      c ∈ db ∧ strLe (mmddStr today) (mmddStr c.birthday.date) = true ∧
      strLe (mmddStr c.birthday.date) (mmddStr (addDays today 7)) = true ∧
      c.user_id = u := by
    intro c
    unfold get_next_week_birthday_contacts
    rw [List.mem_filter]
    simp [Bool.and_eq_true, beq_iff_eq, and_assoc]
  refine ⟨hchar, ?_, ?_⟩
  · intro c hc hu heq
    exact (hchar c).mpr ⟨hc, by rw [heq]; exact strLe_refl _, by rw [heq]; exact hsame, hu⟩
  · intro c hc hu heq
    exact (hchar c).mpr ⟨hc, by rw [heq]; exact hsame, by rw [heq]; exact strLe_refl _, hu⟩

theorem upcoming_birthdays_exact_witness :
    sampleContact 1 1 "taras@ukraine.ua" ⟨1990, 6, 1⟩ ∈
      get_next_week_birthday_contacts
        [sampleContact 1 1 "taras@ukraine.ua" ⟨1990, 6, 1⟩,
         sampleContact 2 1 "lesia@ukraine.ua" ⟨1985, 6, 8⟩] 1 ⟨2024, 6, 1⟩ ∧
    sampleContact 2 1 "lesia@ukraine.ua" ⟨1985, 6, 8⟩ ∈
      get_next_week_birthday_contacts
        [sampleContact 1 1 "taras@ukraine.ua" ⟨1990, 6, 1⟩,
         sampleContact 2 1 "lesia@ukraine.ua" ⟨1985, 6, 8⟩] 1 ⟨2024, 6, 1⟩ := by
  have h := upcoming_birthdays_exact
    [sampleContact 1 1 "taras@ukraine.ua" ⟨1990, 6, 1⟩,
     sampleContact 2 1 "lesia@ukraine.ua" ⟨1985, 6, 8⟩] 1 ⟨2024, 6, 1⟩ (by decide)
  exact ⟨h.2.1 (sampleContact 1 1 "taras@ukraine.ua" ⟨1990, 6, 1⟩)
      (by decide) (by decide) (by decide),
    h.2.2 (sampleContact 2 1 "lesia@ukraine.ua" ⟨1985, 6, 8⟩)
      (by decide) (by decide) (by decide)⟩

theorem mmddStr_year_irrel (y y' : Nat) (m d : Nat) :
    mmddStr ⟨y, m, d⟩ = mmddStr ⟨y', m, d⟩ := rfl

/-- C3: for any current date in the last seven days of December (25-31
December, i.e. within 7 days before 1 January) the textual month-day
window is unsatisfiable — the lower-bound string exceeds the upper-bound
string — so the query returns no contacts at all; in particular contacts
with early-January birthdays are not returned. -/
theorem year_end_window_unsatisfiable (db : Store) (u : Nat) (today : Date)
    (hm : today.month = 12) (hd1 : 25 ≤ today.day) (hd2 : today.day ≤ 31) :
    strLe (mmddStr today) (mmddStr (addDays today 7)) = false ∧
    get_next_week_birthday_contacts db u today = [] := by
  obtain ⟨y, m, d⟩ := today
  simp only at hm hd1 hd2
  subst hm
  have hlt : strLe (mmddStr ⟨y, 12, d⟩) (mmddStr (addDays ⟨y, 12, d⟩ 7)) = false := by
    interval_cases d <;>
      (simp [addDays, nextDay, daysInMonth];
       rw [mmddStr_year_irrel y 0, mmddStr_year_irrel (y + 1) 0];
       decide)
  refine ⟨hlt, ?_⟩
  unfold get_next_week_birthday_contacts
  rw [List.filter_eq_nil_iff]
  intro c _ hc
  simp only [Bool.and_eq_true] at hc
  obtain ⟨⟨h1, h2⟩, _⟩ := hc
  have htr := strLe_trans h1 h2
  simp [htr] at hlt

theorem year_end_window_unsatisfiable_witness :
    strLe (mmddStr ⟨2023, 12, 28⟩) (mmddStr (addDays ⟨2023, 12, 28⟩ 7)) = false ∧
    get_next_week_birthday_contacts
      [sampleContact 1 1 "taras@ukraine.ua" ⟨1992, 1, 4⟩] 1 ⟨2023, 12, 28⟩ = [] :=
  year_end_window_unsatisfiable
    [sampleContact 1 1 "taras@ukraine.ua" ⟨1992, 1, 4⟩] 1 ⟨2023, 12, 28⟩
    (by decide) (by decide) (by decide)
